import Mathlib

/-!
Verification development for the Tracy transaction-text understanding
subsystem: a shallow embedding of the rule-based transaction parsers
(the backend parser in `parser.ts` and the desktop `AIService` rule
parser), the escalation pipeline with its validator, and the query
answering pipeline with its response cache.  JavaScript numbers are
modelled as rationals (the code performs no arithmetic whose result
depends on binary floating point), strings as Lean strings over their
character lists, and the ambient clock / model backend / database as
explicit parameters.
-/

namespace Tracy

/-- Transaction direction, the `'income' | 'expense'` union type. -/
inductive TType where
  | income
  | expense
deriving DecidableEq, Repr

/-- The JavaScript `\s` class restricted to the ASCII whitespace characters
that can occur in the inputs (space, tab, line feed, carriage return,
vertical tab, form feed). -/
def jsWs (c : Char) : Bool :=
  c = ' ' || c = '\t' || c = '\n' || c = '\r' || c = '\x0b' || c = '\x0c'

/-- Currency symbols recognised by the amount regexes: `[$€£]`. -/
def isCurrency (c : Char) : Bool :=
  c = '$' || c = '€' || c = '£'

/-- Word characters for the JavaScript `\b` boundary: `[A-Za-z0-9_]`. -/
def isWordChar (c : Char) : Bool :=
  ('a' ≤ c && c ≤ 'z') || ('A' ≤ c && c ≤ 'Z') || c.isDigit || c = '_'

/-- ASCII letters, the case-insensitive reading of `[A-Z]` / `[a-zA-Z]`. -/
def isAsciiLetter (c : Char) : Bool :=
  ('a' ≤ c && c ≤ 'z') || ('A' ≤ c && c ≤ 'Z')

/-- `String.prototype.toLowerCase` on the ASCII inputs in scope. -/
def lowerL (l : List Char) : List Char := l.map Char.toLower

/-- Trim leading and trailing JavaScript whitespace from a character list. -/
def trimL (l : List Char) : List Char :=
  ((l.dropWhile jsWs).reverse.dropWhile jsWs).reverse

/-- Whether `pat` is a prefix of `s` (character-exact). -/
def isPrefixL : List Char → List Char → Bool
  | [], _ => true
  | _ :: _, [] => false
  | a :: as, b :: bs => a = b && isPrefixL as bs

/-- Whether `pat` occurs as a contiguous substring of `s`
(`String.prototype.includes`). -/
def isSubstringL (pat : List Char) : List Char → Bool
  | [] => pat.isEmpty
  | c :: cs => isPrefixL pat (c :: cs) || isSubstringL pat cs

/-- Case-insensitive prefix test that returns the remainder on success. -/
def dropPrefixCI : List Char → List Char → Option (List Char)
  | [], s => some s
  | _ :: _, [] => none
  | a :: as, b :: bs =>
      if a.toLower = b.toLower then dropPrefixCI as bs else none

/-- `String.prototype.toLowerCase` at string level. -/
def jsToLower (s : String) : String := ⟨lowerL s.data⟩

/-- `String.prototype.trim` at string level. -/
def jsTrim (s : String) : String := ⟨trimL s.data⟩

/-- `haystack.includes(needle)` at string level. -/
def includes (haystack needle : String) : Bool :=
  isSubstringL needle.data haystack.data

/-- `Math.abs` on the rational model of JavaScript numbers. -/
def jsAbs (q : ℚ) : ℚ := if q < 0 then -q else q

/-- `x || default` for a string-valued JavaScript expression: the empty
string is falsy. -/
def jsOrStr (x : Option String) (d : String) : String :=
  match x with
  | some s => if s = "" then d else s
  | none => d

/-- `x || default` for a number-valued JavaScript expression: `0` is falsy. -/
def jsOrQ (x : ℚ) (d : ℚ) : ℚ := if x = 0 then d else x

/-- `merchant || undefined`: an empty merchant string becomes absent. -/
def jsOrOpt (x : Option String) : Option String :=
  match x with
  | some s => if s = "" then none else some s
  | none => none

/-- `Math.max(0, Math.min(1, q))`. -/
def clamp01 (q : ℚ) : ℚ := max 0 (min 1 q)

/-- Numeric value of a digit run (`parseFloat` on the integer part). -/
def digitsToNat (ds : List Char) : Nat :=
  ds.foldl (fun n c => 10 * n + (c.toNat - '0'.toNat)) 0

/-- Value and consumed length of the number literal `\d+(?:[.,]\d{1,2})?`
starting at the head of `s` (the caller guarantees the head is a digit).
The decimal separator `,` is normalised to `.` before conversion, which
the rational value reflects directly. -/
def readDecimal (s : List Char) : ℚ × Nat :=
  let ds := s.takeWhile Char.isDigit
  let r1 := s.drop ds.length
  match r1 with
  | c :: r2 =>
      if c = '.' || c = ',' then
        let fs := (r2.takeWhile Char.isDigit).take 2
        if fs.isEmpty then ((digitsToNat ds : ℚ), ds.length)
        else ((digitsToNat ds : ℚ) + (digitsToNat fs : ℚ) / (10 : ℚ) ^ fs.length,
              ds.length + 1 + fs.length)
      else ((digitsToNat ds : ℚ), ds.length)
  | [] => ((digitsToNat ds : ℚ), ds.length)

/-- Value of the number literal at the head of `s`. -/
def readDecimalVal (s : List Char) : ℚ := (readDecimal s).1

/-- One attempt of `/[$€£]?\s*(\d+(?:[.,]\d{1,2})?)/` at a fixed position:
optionally consume a currency symbol, skip whitespace, and require a digit
(the backtracking alternatives of the optional pieces cannot succeed when
this fails). Returns the captured numeric value. -/
def tryRulesAmountAt (s : List Char) : Option ℚ :=
  let s1 := match s with
    | c :: cs => if isCurrency c then cs else s
    | [] => s
  let s2 := s1.dropWhile jsWs
  match s2 with
  | c :: _ => if c.isDigit then some (readDecimalVal s2) else none
  | [] => none

/-- Leftmost match of `/[$€£]?\s*(\d+(?:[.,]\d{1,2})?)/` over the text:
the first position at which the pattern matches wins. -/
def scanRulesAmount : List Char → Option ℚ
  | [] => none
  | c :: cs =>
      match tryRulesAmountAt (c :: cs) with
      | some v => some v
      | none => scanRulesAmount cs

/-- One attempt of backend pattern 1, `/([+-])\s*[$€£]?\s*(\d+(?:[.,]\d{1,2})?)/`,
at a fixed position: a sign, whitespace, optional currency symbol,
whitespace, then digits. Returns the sign and the captured value. -/
def trySignAmountAt (s : List Char) : Option (Char × ℚ) :=
  match s with
  | c :: cs =>
      if c = '+' || c = '-' then
        let s1 := cs.dropWhile jsWs
        let s2 := match s1 with
          | d :: ds => if isCurrency d then ds.dropWhile jsWs else s1
          | [] => s1
        match s2 with
        | d :: _ => if d.isDigit then some (c, readDecimalVal s2) else none
        | [] => none
      else none
  | [] => none

/-- Leftmost match of backend pattern 1 over the text. -/
def scanSignAmount : List Char → Option (Char × ℚ)
  | [] => none
  | c :: cs =>
      match trySignAmountAt (c :: cs) with
      | some v => some v
      | none => scanSignAmount cs

/-- One attempt of backend pattern 2, `/[$€£]\s*(\d+(?:[.,]\d{1,2})?)/`,
at a fixed position: a mandatory currency symbol, whitespace, digits. -/
def tryCurrencyAmountAt (s : List Char) : Option ℚ :=
  match s with
  | c :: cs =>
      if isCurrency c then
        let s1 := cs.dropWhile jsWs
        match s1 with
        | d :: _ => if d.isDigit then some (readDecimalVal s1) else none
        | [] => none
      else none
  | [] => none

/-- Leftmost match of backend pattern 2 over the text. -/
def scanCurrencyAmount : List Char → Option ℚ
  | [] => none
  | c :: cs =>
      match tryCurrencyAmountAt (c :: cs) with
      | some v => some v
      | none => scanCurrencyAmount cs

/-- Leftmost match of backend pattern 3, `/(\d+(?:[.,]\d{1,2})?)\s*[$€£]?/`:
the match starts at the first digit of the text. Backend pattern 4 matches
exactly when this one does and captures the same digits, so a separate
model is not needed for the amount value. -/
def scanBareAmount (s : List Char) : Option ℚ :=
  let s1 := s.dropWhile (fun c => !c.isDigit)
  match s1 with
  | _ :: _ => some (readDecimalVal s1)
  | [] => none

/-- The backend amount extraction loop over `amountPatterns`: the first
pattern that matches anywhere in the text supplies the amount, and only
pattern 1 supplies an explicit sign. When no pattern matches, the amount
stays `0` with no sign. -/
def extractAmount (text : List Char) : ℚ × Option Char :=
  match scanSignAmount text with
  | some (sgn, v) => (v, some sgn)
  | none =>
      match scanCurrencyAmount text with
      | some v => (v, none)
      | none =>
          match scanBareAmount text with
          | some v => (v, none)
          | none => (0, none)

/-- The environment clock: `new Date().toISOString().split('T')[0]` for
today, and the analogous strings after subtracting one or seven calendar
days, passed in explicitly. -/
structure Clock where
  today : String
  yesterday : String
  lastWeek : String
deriving Repr

/-- The `ParsedTransaction` interface from `shared/types`. -/
structure ParsedTransaction where
  amount : ℚ
  type : TType
  category : String
  merchant : Option String
  description : String
  date : String
  confidence : ℚ
deriving DecidableEq, Repr

namespace Backend

/-- The backend `Category` interface from `types.ts`. -/
structure Category where
  id : String
  name : String
  type : TType
  keywords : List String
deriving DecidableEq, Repr

/-- `DEFAULT_CATEGORIES` from the backend `types.ts` (group, icon and
color fields are irrelevant to parsing and omitted). -/
def DEFAULT_CATEGORIES : List Category := [
  ⟨"gas", "Gas", .expense, ["gas", "fuel", "petrol", "diesel", "gasoline", "shell", "bp", "esso", "tank"]⟩,
  ⟨"transit", "Public Transit", .expense, ["bus", "train", "metro", "subway", "tram", "transit", "ticket"]⟩,
  ⟨"parking", "Parking", .expense, ["parking", "park"]⟩,
  ⟨"uber", "Rideshare", .expense, ["uber", "lyft", "bolt", "taxi", "cab"]⟩,
  ⟨"car", "Car Maintenance", .expense, ["car wash", "oil change", "tire", "mechanic", "repair", "service"]⟩,
  ⟨"rent", "Rent/Mortgage", .expense, ["rent", "mortgage", "lease", "housing"]⟩,
  ⟨"utilities", "Utilities", .expense, ["electric", "electricity", "water", "utility", "internet", "phone", "bill"]⟩,
  ⟨"groceries", "Groceries", .expense, ["grocery", "groceries", "supermarket", "lidl", "aldi", "tesco", "kaufland", "billa", "whole foods"]⟩,
  ⟨"healthcare", "Healthcare", .expense, ["doctor", "pharmacy", "medicine", "hospital", "dental", "dentist", "health"]⟩,
  ⟨"insurance", "Insurance", .expense, ["insurance"]⟩,
  ⟨"dining", "Dining Out", .expense, ["restaurant", "lunch", "dinner", "breakfast", "coffee", "cafe", "starbucks", "mcdonald", "pizza", "burger", "food", "eat"]⟩,
  ⟨"entertainment", "Entertainment", .expense, ["movie", "netflix", "spotify", "game", "concert", "tickets", "cinema", "theater", "bar", "club"]⟩,
  ⟨"shopping", "Shopping", .expense, ["amazon", "shopping", "clothes", "target", "walmart", "ebay", "ikea", "zara"]⟩,
  ⟨"subscriptions", "Subscriptions", .expense, ["subscription", "membership", "premium", "plan", "netflix", "spotify"]⟩,
  ⟨"salary", "Salary", .income, ["salary", "paycheck", "wage", "income", "pay"]⟩,
  ⟨"freelance", "Freelance", .income, ["freelance", "client", "project", "invoice", "gig"]⟩,
  ⟨"investments", "Investments", .income, ["invest", "dividend", "stock", "crypto", "trading", "interest"]⟩,
  ⟨"gifts", "Gifts", .income, ["gift", "present", "birthday", "received"]⟩,
  ⟨"refund", "Refund", .income, ["refund", "return", "cashback", "reimbursement"]⟩,
  ⟨"other-expense", "Other", .expense, []⟩,
  ⟨"other-income", "Other Income", .income, []⟩]

/-- Income keyword list of the backend type classifier. -/
def incomeKeywords : List String :=
  ["salary", "paycheck", "income", "received", "got paid", "earned",
   "bonus", "refund", "dividend", "gift from", "sent me"]

/-- Boundary test for `\b` on the left of a match: start of text or a
preceding non-word character. -/
def boundaryOK (prev : Option Char) : Bool :=
  match prev with
  | none => true
  | some p => !isWordChar p

/-- Attempt of `w\b` at a fixed position, case-insensitively: `w` must be
a prefix here and the following character (if any) must be a non-word
character. Returns the remainder after the match. -/
def tryWordAt (w : List Char) (s : List Char) : Option (List Char) :=
  match dropPrefixCI w s with
  | some r =>
      match r with
      | [] => some r
      | c :: _ => if isWordChar c then none else some r
  | none => none

/-- `/\bw\b/i.test(s)`: scan for a position with a word boundary on the
left where `w` matches followed by a boundary on the right. Both our
pattern words start and end with word characters, so the boundary checks
reduce to non-word neighbours. -/
def testWordAux (w : List Char) : Option Char → List Char → Bool
  | prev, [] => boundaryOK prev && (tryWordAt w []).isSome
  | prev, c :: cs =>
      (boundaryOK prev && (tryWordAt w (c :: cs)).isSome) ||
        testWordAux w (some c) cs

/-- `/\bw\b/i.test(s)` from the start of the string. -/
def testWord (w : String) (s : String) : Bool :=
  testWordAux w.data none s.data

/-- The backend date resolution: "yesterday" beats "last week", default
today. The regexes are tested against the lowercased trimmed text. -/
def resolveDate (clock : Clock) (lowerText : String) : String :=
  if testWord "yesterday" lowerText then clock.yesterday
  else if testWord "last week" lowerText then clock.lastWeek
  else clock.today

/-- Whether a category has some keyword occurring in the lowercased text
(the inner keyword loop with its early break). -/
def categoryHasKeyword (lowerText : String) (c : Category) : Bool :=
  c.keywords.any (fun kw => includes lowerText kw)

/-- The backend category match: first category (in catalog order) of the
classified type with a keyword occurring in the text. -/
def matchCategory (lowerText : String) (type : TType) : Option Category :=
  (DEFAULT_CATEGORIES.filter (fun c => c.type = type)).find?
    (categoryHasKeyword lowerText)

/-- Attempt of `@\s*([^,]+)` immediately after an `@`. The greedy `\s*`
consumes the whitespace run; the capture is then the maximal non-comma
run, which must be non-empty. When the remainder after the whitespace
starts with a comma or ends, the regex backtracks one whitespace
character into the capture, so the capture is that single whitespace
character. Returns the capture and the number of characters consumed
after the `@`. -/
def tryAmpCaptureAt (s : List Char) : Option (List Char × Nat) :=
  let wsRun := s.takeWhile jsWs
  let r := s.drop wsRun.length
  match r with
  | c :: _ =>
      if c = ',' then
        match wsRun with
        | [] => none
        | w :: ws => some ([(w :: ws).getLast (by simp)], wsRun.length)
      else
        let cap := r.takeWhile (fun d => d ≠ ',')
        some (cap, wsRun.length + cap.length)
  | [] =>
      match wsRun with
      | [] => none
      | w :: ws => some ([(w :: ws).getLast (by simp)], wsRun.length)

/-- Leftmost match of `/@\s*([^,]+)/i`: capture group of the first `@`
whose attempt succeeds. -/
def scanAmpMerchant : List Char → Option (List Char)
  | [] => none
  | c :: cs =>
      if c = '@' then
        match tryAmpCaptureAt cs with
        | some (cap, _) => some cap
        | none => scanAmpMerchant cs
      else scanAmpMerchant cs

/-- Attempt of `\bat\s+([^,]+)` at a fixed position (boundary on the left
already checked by the caller): `at` case-insensitively, then at least
one whitespace character, then a non-empty non-comma capture, with the
regex backtracking one whitespace character into the capture when the
remainder starts with a comma or ends (which needs a run of at least two
whitespace characters, since `\s+` keeps at least one). -/
def tryAtCaptureAt (s : List Char) : Option (List Char) :=
  match dropPrefixCI ['a', 't'] s with
  | some r1 =>
      let wsRun := r1.takeWhile jsWs
      let r := r1.drop wsRun.length
      match wsRun with
      | [] => none
      | w :: ws =>
          match r with
          | c :: _ =>
              if c = ',' then
                match ws with
                | _ :: _ => some [(w :: ws).getLast (by simp)]
                | [] => none
              else some (r.takeWhile (fun d => d ≠ ','))
          | [] =>
              match ws with
              | _ :: _ => some [(w :: ws).getLast (by simp)]
              | [] => none
  | none => none

/-- Leftmost match of `/\bat\s+([^,]+)/i` with its left word boundary. -/
def scanAtMerchantAux : Option Char → List Char → Option (List Char)
  | _, [] => none
  | prev, c :: cs =>
      match (if boundaryOK prev then tryAtCaptureAt (c :: cs) else none) with
      | some cap => some cap
      | none => scanAtMerchantAux (some c) cs

/-- JavaScript `text.split(',')` keeping empty fields. -/
def splitComma (s : List Char) : List (List Char) :=
  let part := s.takeWhile (fun c => c ≠ ',')
  match _hdrop : s.drop part.length with
  | [] => [part]
  | _ :: rest => part :: splitComma rest
termination_by s.length
decreasing_by
  have h1 : (s.drop part.length).length ≤ s.length - part.length := by
    simp [List.length_drop]
  have h2 : rest.length < (s.drop part.length).length := by
    rw [_hdrop]; simp
  omega

/-- The backend merchant extraction: `@` marker first, then the word
`at`, then the third comma-separated part. -/
def extractMerchant (text : List Char) : Option String :=
  match scanAmpMerchant text with
  | some cap => some ⟨trimL cap⟩
  | none =>
      match scanAtMerchantAux none text with
      | some cap => some ⟨trimL cap⟩
      | none =>
          let parts := (splitComma text).map trimL
          match parts with
          | _ :: _ :: p :: _ => some ⟨p⟩
          | _ => none

/-- Match length of `[+-]?\s*[$€£]?\s*\d+(?:[.,]\d{1,2})?\s*[$€£]?` at a
fixed position. Every optional prefix piece either consumes its token or
cannot be rescued by backtracking (a sign, currency or whitespace
character can never satisfy the following mandatory `\d+`), so a direct
greedy scan is the exact match semantics. -/
def amountTokenLenAt (s : List Char) : Option Nat :=
  let (n1, s1) := match s with
    | c :: cs => if c = '+' || c = '-' then (1, cs) else (0, s)
    | [] => (0, s)
  let ws1 := s1.takeWhile jsWs
  let s2 := s1.drop ws1.length
  let (n2, s3) := match s2 with
    | c :: cs => if isCurrency c then (1, cs) else (0, s2)
    | [] => (0, s2)
  let ws2 := s3.takeWhile jsWs
  let s4 := s3.drop ws2.length
  match s4 with
  | c :: _ =>
      if c.isDigit then
        let numLen := (readDecimal s4).2
        let s5 := s4.drop numLen
        let ws3 := s5.takeWhile jsWs
        let s6 := s5.drop ws3.length
        let n3 := match s6 with
          | d :: _ => if isCurrency d then 1 else 0
          | [] => 0
        some (n1 + ws1.length + n2 + ws2.length + numLen + ws3.length + n3)
      else none
  | [] => none

/-- Global replace of the amount token pattern with the empty string:
scan left to right, resume after each match (every match consumes at
least one character because `\d+` is mandatory). -/
def stripAmountTokens : List Char → List Char
  | [] => []
  | c :: cs =>
      match amountTokenLenAt (c :: cs) with
      | some n => stripAmountTokens (cs.drop (n - 1))
      | none => c :: stripAmountTokens cs
termination_by s => s.length
decreasing_by
  · have := List.length_drop (n - 1) cs
    simp at *; omega
  · simp

/-- Global replace of `/@\s*[^,]+/g` with the empty string. The whole
match spans the `@`, the consumed whitespace and the capture. -/
def stripAmpTokens : List Char → List Char
  | [] => []
  | c :: cs =>
      if c = '@' then
        match tryAmpCaptureAt cs with
        | some (_, consumed) => stripAmpTokens (cs.drop consumed)
        | none => c :: stripAmpTokens cs
      else c :: stripAmpTokens cs
termination_by s => s.length
decreasing_by
  · have := List.length_drop consumed cs
    simp at *; omega
  · simp
  · simp

/-- Attempt of `(yesterday|today|last week)\b` at a fixed position,
case-insensitively, alternatives in source order; the boundary on the
left is checked by the caller. Returns the number of characters
consumed. -/
def tryDateWordAt (s : List Char) : Option Nat :=
  match tryWordAt "yesterday".data s with
  | some _ => some 9
  | none =>
      match tryWordAt "today".data s with
      | some _ => some 5
      | none =>
          match tryWordAt "last week".data s with
          | some _ => some 9
          | none => none

/-- Global replace of `/\b(yesterday|today|last week)\b/gi` with the
empty string, tracking the previous character for the left boundary. -/
def stripDateWords : Option Char → List Char → List Char
  | _, [] => []
  | prev, c :: cs =>
      match (if boundaryOK prev then tryDateWordAt (c :: cs) else none) with
      | some n =>
          stripDateWords ((c :: cs).take n).getLast? (cs.drop (n - 1))
      | none => c :: stripDateWords (some c) cs
termination_by _ s => s.length
decreasing_by
  · have := List.length_drop (n - 1) cs
    simp at *; omega
  · simp

/-- Global replace of `/\s+/g` with a single space. -/
def collapseWs : List Char → List Char
  | [] => []
  | c :: cs =>
      if jsWs c then ' ' :: collapseWs (cs.dropWhile jsWs)
      else c :: collapseWs cs
termination_by s => s.length
decreasing_by
  · have hle : (cs.dropWhile jsWs).length ≤ cs.length := by
      induction cs with
      | nil => simp
      | cons d ds ih =>
          by_cases hd : jsWs d
          · simp [List.dropWhile, hd]
            omega
          · simp [List.dropWhile, hd]
    simp at *; omega
  · simp

/-- `description.charAt(0).toUpperCase() + description.slice(1)`. -/
def capitalizeL : List Char → List Char
  | [] => []
  | c :: cs => c.toUpper :: cs

/-- The backend description build: strip amount tokens, `@`-merchant
tokens and relative date words from the original text, collapse
whitespace and trim. -/
def buildDescription (text : List Char) : List Char :=
  trimL (collapseWs (stripDateWords none (stripAmpTokens (stripAmountTokens text))))

/-- The backend type determination: explicit sign first, then income
keywords, defaulting to expense. -/
def classifyType (lowerText : String) (explicitSign : Option Char) : TType :=
  if explicitSign = some '+' then .income
  else if explicitSign = some '-' then .expense
  else if incomeKeywords.any (fun kw => includes lowerText kw) then .income
  else .expense

/-- The matched category after the fallback assignment: keyword match of
the classified type, else the type-specific `other-income` /
`other-expense` catalog entry. -/
def resolvedCategory (lowerText : String) (type : TType) : Option Category :=
  match matchCategory lowerText type with
  | some c => some c
  | none =>
      DEFAULT_CATEGORIES.find? (fun c =>
        c.id = (if type = .income then "other-income" else "other-expense"))

/-- `parseTransaction` from the backend `parser.ts`, with the ambient
dates supplied by `clock`. -/
def parseTransaction (clock : Clock) (text : String) : ParsedTransaction :=
  let lowerText : String := jsTrim (jsToLower text)
  let ea := extractAmount text.data
  let amount := ea.1
  let explicitSign := ea.2
  let type : TType := classifyType lowerText explicitSign
  let date := resolveDate clock lowerText
  let matchedCategory : Option Category := resolvedCategory lowerText type
  let confidence : ℚ := if (matchCategory lowerText type).isSome then 0.85 else 0.5
  let merchant := extractMerchant text.data
  let description0 := buildDescription text.data
  let description :=
    if description0.length < 2 then
      (jsOrStr (matchedCategory.map (fun c => c.name)) "Transaction").data
    else description0
  { amount := jsAbs amount
    type := type
    category := jsOrStr (matchedCategory.map (fun c => c.name)) "Other"
    merchant := merchant
    description := ⟨capitalizeL description⟩
    date := date
    confidence := confidence }

end Backend

namespace AIService

/-- A category row as read by the desktop `Database.getCategories`
(only the fields the parsing code consumes). -/
structure DbCategory where
  id : String
  name : String
  type : TType
deriving DecidableEq, Repr

/-- The desktop seed catalog (`Database.seedDefaultData`) in the order
returned by `getCategories` (`ORDER BY group_name, name`): essential,
income, lifestyle, other, savings, transportation. Runtime ids are
random uuids; placeholder ids stand in for them (no parsing claim reads
an id). -/
def desktopDefaultCategories : List DbCategory := [
  ⟨"c01", "Groceries", .expense⟩,
  ⟨"c02", "Healthcare", .expense⟩,
  ⟨"c03", "Insurance", .expense⟩,
  ⟨"c04", "Rent/Mortgage", .expense⟩,
  ⟨"c05", "Utilities", .expense⟩,
  ⟨"c06", "Freelance", .income⟩,
  ⟨"c07", "Gifts", .income⟩,
  ⟨"c08", "Investments", .income⟩,
  ⟨"c09", "Refund", .income⟩,
  ⟨"c10", "Salary", .income⟩,
  ⟨"c11", "Dining Out", .expense⟩,
  ⟨"c12", "Entertainment", .expense⟩,
  ⟨"c13", "Shopping", .expense⟩,
  ⟨"c14", "Subscriptions", .expense⟩,
  ⟨"c15", "Other", .expense⟩,
  ⟨"c16", "Other Income", .income⟩,
  ⟨"c17", "Investments", .expense⟩,
  ⟨"c18", "Savings Transfer", .expense⟩,
  ⟨"c19", "Car Maintenance", .expense⟩,
  ⟨"c20", "Gas", .expense⟩,
  ⟨"c21", "Parking", .expense⟩,
  ⟨"c22", "Public Transit", .expense⟩]

/-- Income keyword list of `parseWithRules`. -/
def incomeKeywords : List String :=
  ["salary", "paycheck", "income", "received", "got paid", "earned",
   "bonus", "refund", "dividend"]

/-- Expense keyword list of `parseWithRules`. -/
def expenseKeywords : List String :=
  ["spent", "paid", "bought", "cost", "purchase", "bill", "expense"]

/-- The hardcoded `categoryKeywords` table of `parseWithRules`, in
declaration order. -/
def categoryKeywords : List (String × List String) := [
  ("Groceries", ["grocery", "groceries", "supermarket", "food", "whole foods", "trader", "aldi", "lidl"]),
  ("Dining Out", ["restaurant", "lunch", "dinner", "coffee", "cafe", "starbucks", "mcdonald"]),
  ("Transportation", ["uber", "lyft", "taxi", "gas", "fuel", "parking", "transit", "metro", "bus"]),
  ("Rent/Mortgage", ["rent", "mortgage", "lease"]),
  ("Utilities", ["electric", "water", "gas bill", "utility", "internet", "phone"]),
  ("Entertainment", ["movie", "netflix", "spotify", "game", "concert", "tickets"]),
  ("Shopping", ["amazon", "shopping", "clothes", "target", "walmart", "ebay"]),
  ("Healthcare", ["doctor", "pharmacy", "medicine", "hospital", "dental"]),
  ("Salary", ["salary", "paycheck", "got paid", "wage"]),
  ("Freelance", ["freelance", "client", "project", "invoice"])]

/-- Attempt of `kw\s+([A-Z][a-zA-Z\s]+)` at a fixed position,
case-insensitively: the keyword, at least one whitespace character, then
a letter followed by one or more letters or whitespace (backtracking the
`\s+` cannot rescue a failure because a whitespace character never
matches the leading `[A-Z]`). Returns the capture. -/
def tryKwMerchantAt (kw : List Char) (s : List Char) : Option (List Char) :=
  match dropPrefixCI kw s with
  | some r1 =>
      let wsRun := r1.takeWhile jsWs
      let r := r1.drop wsRun.length
      match wsRun with
      | [] => none
      | _ :: _ =>
          match r with
          | c :: cs =>
              if isAsciiLetter c then
                let run := cs.takeWhile (fun d => isAsciiLetter d || jsWs d)
                match run with
                | [] => none
                | _ :: _ => some (c :: run)
              else none
          | [] => none
  | none => none

/-- Leftmost match of `/kw\s+([A-Z][a-zA-Z\s]+)/i`. -/
def scanKwMerchant (kw : List Char) : List Char → Option (List Char)
  | [] => none
  | c :: cs =>
      match tryKwMerchantAt kw (c :: cs) with
      | some cap => some cap
      | none => scanKwMerchant kw cs

/-- The `parseWithRules` merchant loop over its two patterns (`at` then
`from`), returning the trimmed capture of the first pattern that
matches. -/
def rulesMerchant (text : List Char) : Option String :=
  match scanKwMerchant "at".data text with
  | some cap => some ⟨trimL cap⟩
  | none =>
      match scanKwMerchant "from".data text with
      | some cap => some ⟨trimL cap⟩
      | none => none

/-- The desktop type determination: income keywords first, then expense
keywords, with expense as the initial default. -/
def ruleType (lowerText : String) : TType :=
  if incomeKeywords.any (fun kw => includes lowerText kw) then .income
  else if expenseKeywords.any (fun kw => includes lowerText kw) then .expense
  else .expense

/-- The `categoryKeywords` loop: first table entry with a keyword
occurring in the lowercased text. -/
def ruleCategoryMatch (lowerText : String) : Option (String × List String) :=
  categoryKeywords.find? (fun p => p.2.any (fun kw => includes lowerText kw))

/-- The keyword-table category name after the loop, before the catalog
lookup: the matched entry name, else the type-specific fallback. -/
def ruleCategoryName (lowerText : String) (type : TType) : String :=
  match ruleCategoryMatch lowerText with
  | some p => p.1
  | none => if type = .income then "Other Income" else "Other"

/-- `AIService.parseWithRules`: the desktop rule-based parser, reading
the category catalog from the database snapshot. -/
def parseWithRules (categories : List DbCategory) (clock : Clock)
    (text : String) : ParsedTransaction :=
  let lowerText := jsToLower text
  let amount := (scanRulesAmount text.data).getD 0
  let type : TType := ruleType lowerText
  let date := if includes lowerText "yesterday" then clock.yesterday else clock.today
  let category : String := ruleCategoryName lowerText type
  let confidence : ℚ := if (ruleCategoryMatch lowerText).isSome then 0.8 else 0.5
  let matchedCategory := categories.find? (fun c =>
    jsToLower c.name = jsToLower category && c.type = type)
  let merchant := rulesMerchant text.data
  { amount := amount
    type := type
    category := jsOrStr (matchedCategory.map (fun c => c.name)) category
    merchant := merchant
    description := text
    date := date
    confidence := confidence }

/-- Strict date format check `/^\d{4}-\d{2}-\d{2}$/`. -/
def dateFormatOk (s : String) : Bool :=
  match s.data with
  | [y1, y2, y3, y4, h1, m1, m2, h2, d1, d2] =>
      y1.isDigit && y2.isDigit && y3.isDigit && y4.isDigit && h1 = '-' &&
        m1.isDigit && m2.isDigit && h2 = '-' && d1.isDigit && d2.isDigit
  | _ => false

/-- `AIService.validateAndEnrich`: reconcile a model-sourced parse with
the catalog (exact case-insensitive name match, else substring
containment, else type-specific fallback), force the amount nonnegative,
repair a malformed date to today, and clamp the confidence. -/
def validateAndEnrich (categories : List DbCategory) (clock : Clock)
    (parsed : ParsedTransaction) : ParsedTransaction :=
  let matchedCategory := categories.find? (fun c =>
    jsToLower c.name = jsToLower parsed.category)
  let category : String :=
    match matchedCategory with
    | some c => c.name
    | none =>
        let fuzzyMatch := categories.find? (fun c =>
          includes (jsToLower c.name) (jsToLower parsed.category))
        jsOrStr (fuzzyMatch.map (fun c => c.name))
          (if parsed.type = .income then "Other Income" else "Other")
  let amount := jsAbs parsed.amount
  let date := if dateFormatOk parsed.date then parsed.date else clock.today
  let confidence := clamp01 (jsOrQ parsed.confidence 0.5)
  { parsed with
      category := category
      amount := amount
      date := date
      confidence := confidence }

/-- The structured output object of a successful `generateObject` call
against `TransactionSchema`. -/
structure ModelOut where
  amount : ℚ
  type : TType
  category : String
  merchant : Option String
  description : String
  date : String
  confidence : ℚ
deriving DecidableEq, Repr

/-- The field mapping applied to the model object before validation
(`parsed.merchant || undefined` drops an empty merchant). -/
def modelToParsed (m : ModelOut) : ParsedTransaction :=
  { amount := m.amount
    type := m.type
    category := m.category
    merchant := jsOrOpt m.merchant
    description := m.description
    date := m.date
    confidence := m.confidence }

/-- Instrumented outcome of one `AIService.parseTransaction` call: the
returned parse, the number of structured-extraction calls issued, and
the category names offered in the escalation prompt (`none` when no
escalation happened). -/
structure PipelineOutcome where
  result : ParsedTransaction
  modelCalls : Nat
  promptCategories : Option (List String)
deriving DecidableEq, Repr

/-- The category names placed in the escalation prompt:
`categories.map(c => c.name).slice(0, 15)`. -/
def promptCategoryNames (categories : List DbCategory) : List String :=
  (categories.map (fun c => c.name)).take 15

/-- `AIService.parseTransaction`: rule-based parse first; return it
immediately at confidence at least 0.75, otherwise build the prompt and
attempt the structured-extraction call exactly once. A successful call
(`oracle = some m`) is validated and returned; a throwing or
schema-violating call (`oracle = none`) falls back to the pre-escalation
rule-based result. -/
def parseTransaction (categories : List DbCategory) (clock : Clock)
    (oracle : Option ModelOut) (text : String) : PipelineOutcome :=
  let rulesBased := parseWithRules categories clock text
  if 0.75 ≤ rulesBased.confidence then
    { result := rulesBased, modelCalls := 0, promptCategories := none }
  else
    let categoryList := promptCategoryNames categories
    match oracle with
    | some m =>
        { result := validateAndEnrich categories clock (modelToParsed m)
          modelCalls := 1
          promptCategories := some categoryList }
    | none =>
        { result := rulesBased
          modelCalls := 1
          promptCategories := some categoryList }

end AIService

namespace Query

/-- A transaction row as consumed by the query answering code. -/
structure Tx where
  categoryId : String
  amount : ℚ
  type : TType
deriving DecidableEq, Repr

/-- An account row with its balance. -/
structure Account where
  name : String
  balance : ℚ
deriving DecidableEq, Repr

/-- A budget row. -/
structure Budget where
  id : String
  categoryId : String
  amount : ℚ
deriving DecidableEq, Repr

/-- Snapshot of the database collaborator as seen by one query call: the
transaction rows of the current month window in the order the store
returns them, plus accounts, budgets and the category catalog. The
month-window date filtering and row ordering happen inside the excluded
persistence layer, so the snapshot holds its result rows directly. -/
structure Db where
  txns : List Tx
  accounts : List Account
  budgets : List Budget
  categories : List AIService.DbCategory
deriving Repr

/-- `db.getTransactions({startDate, endDate, type})` over the snapshot:
the type filter of the query; the window is the snapshot itself. -/
def Db.getTransactions (db : Db) (type? : Option TType) : List Tx :=
  match type? with
  | some t => db.txns.filter (fun x => x.type = t)
  | none => db.txns

/-- `Math.round` / the `toFixed` rounding rule: nearest integer, ties
toward positive infinity. -/
def jsRound (q : ℚ) : ℤ := ⌊q + 1 / 2⌋

/-- Left-pad a digit string with zeros to the given width. -/
def padZeros (width : Nat) (s : String) : String :=
  ⟨List.replicate (width - s.length) '0'⟩ ++ s

/-- `Number.prototype.toFixed(f)` on the rational model: round at `f`
decimal places (ties toward positive infinity) and print with exactly
`f` fraction digits. -/
def toFixed (f : Nat) (q : ℚ) : String :=
  let n := jsRound (q * (10 : ℚ) ^ f)
  let sign := if n < 0 then "-" else ""
  let m := n.natAbs
  if f = 0 then sign ++ toString m
  else sign ++ toString (m / 10 ^ f) ++ "." ++ padZeros f (toString (m % 10 ^ f))

/-- `reduce((sum, t) => sum + Math.abs(t.amount), 0)`. -/
def sumAbs (l : List Tx) : ℚ := l.foldl (fun s t => s + jsAbs t.amount) 0

/-- One `spending.set(cid, (spending.get(cid) || 0) + v)` step on the
insertion-ordered map. -/
def bumpEntry (m : List (String × ℚ)) (k : String) (v : ℚ) : List (String × ℚ) :=
  match m with
  | [] => [(k, v)]
  | (k2, v2) :: rest =>
      if k2 = k then (k2, v2 + v) :: rest else (k2, v2) :: bumpEntry rest k v

/-- Per-category spending accumulation in first-insertion order. -/
def accumSpending (l : List Tx) : List (String × ℚ) :=
  l.foldl (fun m t => bumpEntry m t.categoryId (jsAbs t.amount)) []

/-- Stable insertion of an entry into a list sorted by decreasing
amount: the new element goes after existing equal amounts, matching the
stable `sort((a, b) => b[1] - a[1])`. -/
def insertByAmountDesc (x : String × ℚ) :
    List (String × ℚ) → List (String × ℚ)
  | [] => [x]
  | y :: ys => if y.2 < x.2 then x :: y :: ys else y :: insertByAmountDesc x ys

/-- Stable descending sort by amount. -/
def sortByAmountDesc (l : List (String × ℚ)) : List (String × ℚ) :=
  l.foldl (fun acc x => insertByAmountDesc x acc) []

/-- `categoryMap.get(id)` over the catalog list. -/
def categoryById (categories : List AIService.DbCategory) (id : String) :
    Option AIService.DbCategory :=
  categories.find? (fun c => c.id = id)

/-- `AIService.handleLocalQuery`: recognise the canonical intents by
substring containment over the lowercased query, in source order, and
compute the answer directly from the database snapshot. Returns `none`
when no intent matches. A zero budget amount would print `NaN`/`Infinity`
percentages in JavaScript; the rational model prints `0` there, a corner
no intent template distinguishes for the properties proved below. -/
def handleLocalQuery (db : Db) (query : String) : Option String :=
  if includes query "spent" || includes query "spending" || includes query "expense" then
    let transactions := db.getTransactions (some .expense)
    let total := sumAbs transactions
    if includes query "category" || includes query "where" ||
        includes query "top" || includes query "most" then
      let spending := accumSpending transactions
      let sorted := (sortByAmountDesc spending).take 5
      match sorted with
      | [] => some "No expenses recorded this month."
      | _ :: _ =>
          let lines := sorted.enum.map (fun p =>
            toString (p.1 + 1) ++ ". " ++
              jsOrStr ((categoryById db.categories p.2.1).map (fun c => c.name)) "Unknown" ++
              ": €" ++ toFixed 2 p.2.2)
          some ("Top spending this month:\n" ++ String.intercalate "\n" lines ++
            "\n\nTotal: €" ++ toFixed 2 total)
    else some ("You've spent €" ++ toFixed 2 total ++ " this month.")
  else if includes query "income" || includes query "earn" then
    let total := sumAbs (db.getTransactions (some .income))
    some ("Your income this month: €" ++ toFixed 2 total)
  else if includes query "balance" || includes query "have" || includes query "total" then
    let total := db.accounts.foldl (fun s a => s + a.balance) 0
    let breakdown := String.intercalate "\n"
      (db.accounts.map (fun a => a.name ++ ": €" ++ toFixed 2 a.balance))
    some ("Total balance: €" ++ toFixed 2 total ++ "\n\n" ++ breakdown)
  else if includes query "budget" then
    match db.budgets with
    | [] => some "You haven't set up any budgets yet."
    | _ :: _ =>
        let transactions := db.getTransactions (some .expense)
        let status := db.budgets.map (fun b =>
          let spent := sumAbs (transactions.filter (fun t => t.categoryId = b.categoryId))
          let pct := jsRound ((spent / b.amount) * 100)
          let catName := match categoryById db.categories b.categoryId with
            | some c => c.name
            | none => "undefined"
          let emoji := if b.amount < spent then "🔴"
            else if b.amount * 0.8 < spent then "🟡" else "🟢"
          emoji ++ " " ++ catName ++ ": €" ++ toFixed 2 spent ++ " / €" ++
            toFixed 2 b.amount ++ " (" ++ toString pct ++ "%)")
        some ("Budget Status:\n" ++ String.intercalate "\n" status)
  else if includes query "save" || includes query "saving" then
    let transactions := db.getTransactions none
    let income := sumAbs (transactions.filter (fun t => t.type = .income))
    let expenses := sumAbs (transactions.filter (fun t => t.type = .expense))
    let net := income - expenses
    let rate := if 0 < income then (net / income) * 100 else 0
    some (if 0 ≤ net then
        "You've saved €" ++ toFixed 2 net ++ " this month (" ++
          toFixed 1 rate ++ "% savings rate)."
      else
        "You're spending €" ++ toFixed 2 (jsAbs net) ++ " more than you earn this month.")
  else if includes query "summary" || includes query "overview" then
    let transactions := db.getTransactions none
    let income := sumAbs (transactions.filter (fun t => t.type = .income))
    let expenses := sumAbs (transactions.filter (fun t => t.type = .expense))
    let net := income - expenses
    let balance := db.accounts.foldl (fun s a => s + a.balance) 0
    some ("📊 Monthly Summary:\n💰 Income: €" ++ toFixed 2 income ++
      "\n💸 Expenses: €" ++ toFixed 2 expenses ++ "\n" ++
      (if 0 ≤ net then "✅" else "⚠️") ++ " Net: " ++
      (if 0 ≤ net then "+" else "") ++ "€" ++ toFixed 2 net ++
      "\n🏦 Balance: €" ++ toFixed 2 balance)
  else none

/-- `AIService.buildFinancialContext`: the compact financial summary
handed to the narrative-generation call (the query rows are the month
window with `limit: 20`, modelled by taking 20 snapshot rows). -/
def buildFinancialContext (db : Db) : String :=
  let transactions := db.txns.take 20
  let income := sumAbs (transactions.filter (fun t => t.type = .income))
  let expenses := sumAbs (transactions.filter (fun t => t.type = .expense))
  let balance := db.accounts.foldl (fun s a => s + a.balance) 0
  let topSpending := accumSpending (transactions.filter (fun t => t.type = .expense))
  let topCategories := String.intercalate ", "
    (((sortByAmountDesc topSpending).take 5).map (fun p =>
      (match categoryById db.categories p.1 with
        | some c => c.name
        | none => "undefined") ++ ": €" ++ toFixed 2 p.2))
  "Income: €" ++ toFixed 2 income ++ ", Expenses: €" ++ toFixed 2 expenses ++
    ", Balance: €" ++ toFixed 2 balance ++ "\nTop categories: " ++
    jsOrStr (some topCategories) "None" ++ "\nBudgets: " ++
    toString db.budgets.length ++ ", Accounts: " ++ toString db.accounts.length

/-- An empty database snapshot, used to instantiate concrete runs. -/
def emptyDb : Db := ⟨[], [], [], []⟩

/-- One cached response: `{response, timestamp}`. -/
structure CacheEntry where
  response : String
  timestamp : ℤ
deriving DecidableEq, Repr

/-- The `responseCache` map in insertion order. -/
abbrev Cache := List (String × CacheEntry)

/-- `responseCache.get(key)`. -/
def cacheGet (cache : Cache) (key : String) : Option CacheEntry :=
  match cache.find? (fun p => p.1 = key) with
  | some p => some p.2
  | none => none

/-- `responseCache.set(key, e)`: overwrite in place, else append. -/
def cacheSet : Cache → String → CacheEntry → Cache
  | [], k, e => [(k, e)]
  | (k2, e2) :: rest, k, e =>
      if k2 = k then (k, e) :: rest else (k2, e2) :: cacheSet rest k e

/-- `CACHE_TTL = 5 * 60 * 1000` milliseconds. -/
def CACHE_TTL : ℤ := 5 * 60 * 1000

/-- The fixed generic help message of the failure path. -/
def genericHelp : String :=
  "Ask me about: spending, income, balance, budgets, savings, or get a summary!"

/-- Instrumented outcome of one `processQuery` call: the returned text,
the cache afterwards, the number of narrative-generation calls issued
(attempts, successful or thrown), and whether the call recomputed an
answer rather than serving the cache. -/
structure QueryOutcome where
  response : String
  cache : Cache
  extCalls : Nat
  computed : Bool

/-- `AIService.processQuery`: normalise the query to the cache key,
serve a fresh cache hit, otherwise answer locally (caching a truthy
result), otherwise issue one narrative-generation call whose trimmed
text is cached and returned (`oracle = some t`), falling back to the
generic help message without caching when the call throws
(`oracle = none`). `now` is `Date.now()`. -/
def processQuery (db : Db) (now : ℤ) (oracle : Option String)
    (cache : Cache) (query : String) : QueryOutcome :=
  let lowerQuery := jsToLower query
  let cacheKey := jsTrim lowerQuery
  let hit := match cacheGet cache cacheKey with
    | some e => if now - e.timestamp < CACHE_TTL then some e.response else none
    | none => none
  let aiAnswer : QueryOutcome :=
    let _context := buildFinancialContext db
    match oracle with
    | some t =>
        let r := jsTrim t
        ⟨r, cacheSet cache cacheKey ⟨r, now⟩, 1, true⟩
    | none => ⟨genericHelp, cache, 1, true⟩
  match hit with
  | some r => ⟨r, cache, 0, false⟩
  | none =>
      match handleLocalQuery db lowerQuery with
      | some r =>
          if r = "" then aiAnswer
          else ⟨r, cacheSet cache cacheKey ⟨r, now⟩, 0, true⟩
      | none => aiAnswer

end Query

/-- A concrete clock used to instantiate claims on concrete inputs. -/
def sampleClock : Clock := ⟨"2026-10-12", "2026-10-11", "2026-10-05"⟩

/-- A catalog names categories case-consistently when any two entries
whose names agree up to case have identical names. The desktop seed
catalog satisfies this (its duplicate `Investments` rows carry the very
same name). -/
abbrev caseConsistent (cats : List AIService.DbCategory) : Prop :=
  ∀ c1 ∈ cats, ∀ c2 ∈ cats,
    jsToLower c1.name = jsToLower c2.name → c1.name = c2.name

/- ### Basic lemmas -/

theorem jsAbs_nonneg (q : ℚ) : 0 ≤ jsAbs q := by
  unfold jsAbs
  split <;> linarith

theorem jsAbs_of_nonneg {q : ℚ} (h : 0 ≤ q) : jsAbs q = q := by
  unfold jsAbs
  split <;> linarith

theorem readDecimalVal_nonneg (s : List Char) : 0 ≤ readDecimalVal s := by
  unfold readDecimalVal readDecimal
  dsimp only
  split
  · split
    · split
      · positivity
      · positivity
    · positivity
  · positivity

theorem tryRulesAmountAt_nonneg {s : List Char} {v : ℚ}
    (h : tryRulesAmountAt s = some v) : 0 ≤ v := by
  unfold tryRulesAmountAt at h
  dsimp only at h
  split at h
  · split at h
    · cases h
      exact readDecimalVal_nonneg _
    · cases h
  · cases h

theorem scanRulesAmount_nonneg {s : List Char} {v : ℚ}
    (h : scanRulesAmount s = some v) : 0 ≤ v := by
  induction s with
  | nil => cases h
  | cons c cs ih =>
      unfold scanRulesAmount at h
      split at h
      · cases h
        exact tryRulesAmountAt_nonneg (by assumption)
      · exact ih h

theorem trySignAmountAt_nonneg {s : List Char} {p : Char × ℚ}
    (h : trySignAmountAt s = some p) : 0 ≤ p.2 := by
  unfold trySignAmountAt at h
  dsimp only at h
  split at h
  · split at h
    · split at h
      · split at h
        · cases h
          exact readDecimalVal_nonneg _
        · cases h
      · cases h
    · cases h
  · cases h

theorem scanSignAmount_nonneg {s : List Char} {p : Char × ℚ}
    (h : scanSignAmount s = some p) : 0 ≤ p.2 := by
  induction s with
  | nil => cases h
  | cons c cs ih =>
      unfold scanSignAmount at h
      split at h
      · cases h
        exact trySignAmountAt_nonneg (by assumption)
      · exact ih h

theorem tryCurrencyAmountAt_nonneg {s : List Char} {v : ℚ}
    (h : tryCurrencyAmountAt s = some v) : 0 ≤ v := by
  unfold tryCurrencyAmountAt at h
  dsimp only at h
  split at h
  · split at h
    · split at h
      · split at h
        · cases h
          exact readDecimalVal_nonneg _
        · cases h
      · cases h
    · cases h
  · cases h

theorem scanCurrencyAmount_nonneg {s : List Char} {v : ℚ}
    (h : scanCurrencyAmount s = some v) : 0 ≤ v := by
  induction s with
  | nil => cases h
  | cons c cs ih =>
      unfold scanCurrencyAmount at h
      split at h
      · cases h
        exact tryCurrencyAmountAt_nonneg (by assumption)
      · exact ih h

theorem scanBareAmount_nonneg {s : List Char} {v : ℚ}
    (h : scanBareAmount s = some v) : 0 ≤ v := by
  unfold scanBareAmount at h
  dsimp only at h
  split at h
  · cases h
    exact readDecimalVal_nonneg _
  · cases h

theorem extractAmount_nonneg (s : List Char) : 0 ≤ (extractAmount s).1 := by
  unfold extractAmount
  split
  · exact scanSignAmount_nonneg (by assumption)
  · split
    · exact scanCurrencyAmount_nonneg (by assumption)
    · split
      · exact scanBareAmount_nonneg (by assumption)
      · exact le_refl 0

/- ### Projection lemmas for the two rule parsers -/

theorem backend_type_eq (clock : Clock) (text : String) :
    (Backend.parseTransaction clock text).type =
      Backend.classifyType (jsTrim (jsToLower text)) (extractAmount text.data).2 := rfl

theorem backend_amount_eq (clock : Clock) (text : String) :
    (Backend.parseTransaction clock text).amount =
      jsAbs (extractAmount text.data).1 := rfl

theorem backend_category_eq (clock : Clock) (text : String) :
    (Backend.parseTransaction clock text).category =
      jsOrStr ((Backend.resolvedCategory (jsTrim (jsToLower text))
          (Backend.classifyType (jsTrim (jsToLower text))
            (extractAmount text.data).2)).map (fun c => c.name)) "Other" := rfl

theorem backend_confidence_eq (clock : Clock) (text : String) :
    (Backend.parseTransaction clock text).confidence =
      (if (Backend.matchCategory (jsTrim (jsToLower text))
            (Backend.classifyType (jsTrim (jsToLower text))
              (extractAmount text.data).2)).isSome
        then (0.85 : ℚ) else 0.5) := rfl

theorem rules_amount_eq (cats : List AIService.DbCategory) (clock : Clock)
    (text : String) :
    (AIService.parseWithRules cats clock text).amount =
      (scanRulesAmount text.data).getD 0 := rfl

theorem rules_confidence_eq (cats : List AIService.DbCategory) (clock : Clock)
    (text : String) :
    (AIService.parseWithRules cats clock text).confidence =
      (if (AIService.ruleCategoryMatch (jsToLower text)).isSome
        then (0.8 : ℚ) else 0.5) := rfl

theorem validate_amount_eq (cats : List AIService.DbCategory) (clock : Clock)
    (p : ParsedTransaction) :
    (AIService.validateAndEnrich cats clock p).amount = jsAbs p.amount := rfl

theorem validate_date_eq (cats : List AIService.DbCategory) (clock : Clock)
    (p : ParsedTransaction) :
    (AIService.validateAndEnrich cats clock p).date =
      (if AIService.dateFormatOk p.date then p.date else clock.today) := rfl

theorem validate_category_eq (cats : List AIService.DbCategory) (clock : Clock)
    (p : ParsedTransaction) :
    (AIService.validateAndEnrich cats clock p).category =
      (match cats.find? (fun c => jsToLower c.name = jsToLower p.category) with
        | some c => c.name
        | none =>
            jsOrStr ((cats.find? (fun c =>
                includes (jsToLower c.name) (jsToLower p.category))).map
                  (fun c => c.name))
              (if p.type = .income then "Other Income" else "Other")) := rfl

/- ### Category reconciliation lemmas -/

theorem backend_names_ne_empty :
    ∀ c ∈ Backend.DEFAULT_CATEGORIES, c.name ≠ "" := by decide

theorem backend_resolved_spec (lower : String) (t : TType) :
    ∃ c ∈ Backend.DEFAULT_CATEGORIES, c.type = t ∧
      c.name = jsOrStr ((Backend.resolvedCategory lower t).map (fun c => c.name))
        "Other" := by
  unfold Backend.resolvedCategory
  cases h : Backend.matchCategory lower t with
  | some c =>
      have hmem : c ∈ Backend.DEFAULT_CATEGORIES.filter (fun c => c.type = t) :=
        List.mem_of_find?_eq_some h
      have hc := List.mem_filter.mp hmem
      refine ⟨c, hc.1, by simpa using hc.2, ?_⟩
      have hne : c.name ≠ "" := backend_names_ne_empty c hc.1
      simp [jsOrStr, hne]
  | none =>
      cases t <;> simp <;> decide

theorem validate_category_closed (cats : List AIService.DbCategory)
    (clock : Clock) (p : ParsedTransaction) :
    (AIService.validateAndEnrich cats clock p).category ∈
        cats.map (fun c => c.name) ∨
      (AIService.validateAndEnrich cats clock p).category = "Other" ∨
      (AIService.validateAndEnrich cats clock p).category = "Other Income" := by
  rw [validate_category_eq]
  cases h : cats.find? (fun c => jsToLower c.name = jsToLower p.category) with
  | some c =>
      exact Or.inl (List.mem_map.mpr ⟨c, List.mem_of_find?_eq_some h, rfl⟩)
  | none =>
      cases h2 : cats.find? (fun c =>
          includes (jsToLower c.name) (jsToLower p.category)) with
      | some c =>
          by_cases hne : c.name = ""
          · cases hp : p.type <;> simp [jsOrStr, hne, hp]
          · refine Or.inl ?_
            have hred : jsOrStr ((some c).map (fun c => c.name))
                (if p.type = .income then "Other Income" else "Other") = c.name := by
              simp [jsOrStr, hne]
            rw [hred]
            exact List.mem_map.mpr ⟨c, List.mem_of_find?_eq_some h2, rfl⟩
      | none =>
          cases hp : p.type <;> simp [jsOrStr, hp]

theorem validate_category_exact (cats : List AIService.DbCategory)
    (clock : Clock) (p : ParsedTransaction) (hcc : caseConsistent cats)
    (hmem : p.category ∈ cats.map (fun c => c.name)) :
    (AIService.validateAndEnrich cats clock p).category = p.category := by
  rw [validate_category_eq]
  obtain ⟨c, hc, hcname⟩ := List.mem_map.mp hmem
  have hex : ∃ x ∈ cats,
      (fun c => decide (jsToLower c.name = jsToLower p.category)) x = true :=
    ⟨c, hc, by simp [hcname]⟩
  have hsome := List.find?_isSome.mpr hex
  cases h : cats.find? (fun c => jsToLower c.name = jsToLower p.category) with
  | none => rw [h] at hsome; cases hsome
  | some c2 =>
      have hc2 : c2 ∈ cats := List.mem_of_find?_eq_some h
      have hpred := List.find?_some h
      have hlow : jsToLower c2.name = jsToLower p.category := by
        simpa using hpred
      have : c2.name = c.name := hcc c2 hc2 c hc (by rw [hlow, ← hcname])
      simp [this, hcname]

/- ### Claim theorems -/

/-- C1 (counterexample): on the seeded desktop catalog the full pipeline
parses "uber 20" with confidence 0.8 (no escalation) and emits the
hardcoded keyword-table name "Transportation", which is not the name of
any catalog category and not a designated fallback. -/
theorem c1_category_counterexample :
    (AIService.parseTransaction AIService.desktopDefaultCategories sampleClock
        none "uber 20").result.category = "Transportation" ∧
      ("Transportation" ∈ AIService.desktopDefaultCategories.map (fun c => c.name) →
        False) ∧
      "Transportation" ≠ "Other" ∧ "Transportation" ≠ "Other Income" := by
  with_unfolding_all decide

/-- C1 (amended): the validator always returns a catalog name or one of
the two fallback strings, but without consulting the transaction type;
the backend rule parser does guarantee a catalog category of matching
type. The desktop rule parser provides no such guarantee (see the
counterexample). -/
theorem c1_category_invariant :
    ∀ (cats : List AIService.DbCategory) (clock : Clock)
      (p : ParsedTransaction) (text : String),
      ((AIService.validateAndEnrich cats clock p).category ∈
          cats.map (fun c => c.name) ∨
        (AIService.validateAndEnrich cats clock p).category = "Other" ∨
        (AIService.validateAndEnrich cats clock p).category = "Other Income") ∧
      (∃ c ∈ Backend.DEFAULT_CATEGORIES,
        c.type = (Backend.parseTransaction clock text).type ∧
        c.name = (Backend.parseTransaction clock text).category) := by
  intro cats clock p text
  refine ⟨validate_category_closed cats clock p, ?_⟩
  rw [backend_category_eq, backend_type_eq]
  exact backend_resolved_spec (jsTrim (jsToLower text))
    (Backend.classifyType (jsTrim (jsToLower text)) (extractAmount text.data).2)

/-- C2: every parse result carries a nonnegative amount — the desktop
rule parser's regex can only capture an unsigned number, the validator
forces the absolute value, the backend parser returns the absolute value
of its numeric match, and hence the full pipeline output is always
nonnegative. -/
theorem c2_amount_nonneg :
    ∀ (cats : List AIService.DbCategory) (clock : Clock)
      (oracle : Option AIService.ModelOut) (text : String)
      (p : ParsedTransaction),
      0 ≤ (AIService.parseWithRules cats clock text).amount ∧
      (AIService.validateAndEnrich cats clock p).amount = jsAbs p.amount ∧
      0 ≤ (AIService.validateAndEnrich cats clock p).amount ∧
      (Backend.parseTransaction clock text).amount =
        jsAbs (extractAmount text.data).1 ∧
      0 ≤ (Backend.parseTransaction clock text).amount ∧
      0 ≤ (AIService.parseTransaction cats clock oracle text).result.amount := by
  intro cats clock oracle text p
  have hrules : 0 ≤ (AIService.parseWithRules cats clock text).amount := by
    rw [rules_amount_eq]
    cases h : scanRulesAmount text.data with
    | none => simp
    | some v => simpa using scanRulesAmount_nonneg h
  refine ⟨hrules, validate_amount_eq cats clock p, ?_, backend_amount_eq clock text, ?_, ?_⟩
  · rw [validate_amount_eq]
    exact jsAbs_nonneg _
  · rw [backend_amount_eq]
    exact jsAbs_nonneg _
  · unfold AIService.parseTransaction
    dsimp only
    split
    · exact hrules
    · split
      · rw [validate_amount_eq]
        exact jsAbs_nonneg _
      · exact hrules

/-- C3: the pipeline returns the rule-based result untouched, with zero
structured-extraction calls, whenever its confidence reaches 0.75, and
otherwise attempts exactly one structured-extraction call, regardless of
whether that call succeeds or throws. -/
theorem c3_threshold_escalation :
    ∀ (cats : List AIService.DbCategory) (clock : Clock)
      (oracle : Option AIService.ModelOut) (text : String),
      ((0.75 : ℚ) ≤ (AIService.parseWithRules cats clock text).confidence →
        AIService.parseTransaction cats clock oracle text =
          ⟨AIService.parseWithRules cats clock text, 0, none⟩) ∧
      ((AIService.parseWithRules cats clock text).confidence < (0.75 : ℚ) →
        (AIService.parseTransaction cats clock oracle text).modelCalls = 1) := by
  intro cats clock oracle text
  unfold AIService.parseTransaction
  dsimp only
  split
  · next hc =>
      exact ⟨fun _ => rfl, fun hlt => absurd hc (not_le.mpr hlt)⟩
  · next hc =>
      refine ⟨fun hle => absurd hle hc, fun _ => ?_⟩
      cases oracle <;> rfl

/-- C3 (witness): "lunch 10" matches the Dining Out keyword row, reaches
confidence 0.8 and is returned with no model call; "hello world" matches
nothing, stays at 0.5 and issues exactly one call. -/
theorem c3_threshold_escalation_witness :
    (AIService.parseTransaction AIService.desktopDefaultCategories sampleClock
        none "lunch 10" =
      ⟨AIService.parseWithRules AIService.desktopDefaultCategories sampleClock
          "lunch 10", 0, none⟩) ∧
    (AIService.parseTransaction AIService.desktopDefaultCategories sampleClock
        none "hello world").modelCalls = 1 :=
  ⟨(c3_threshold_escalation AIService.desktopDefaultCategories sampleClock
      none "lunch 10").1 (by with_unfolding_all decide),
   (c3_threshold_escalation AIService.desktopDefaultCategories sampleClock
      none "hello world").2 (by with_unfolding_all decide)⟩

/-- C4: when the structured-extraction call throws or returns an
unusable shape (`oracle = none`), `parseTransaction` returns exactly the
pre-escalation rule-based result; the failure is swallowed, never
surfaced. -/
theorem c4_escalation_failure_fallback :
    ∀ (cats : List AIService.DbCategory) (clock : Clock) (text : String),
      (AIService.parseTransaction cats clock none text).result =
        AIService.parseWithRules cats clock text := by
  intro cats clock text
  unfold AIService.parseTransaction
  dsimp only
  split <;> rfl

/-- C5 (counterexample): "+500 freelance" carries an explicit `+`
adjacent to the number (the backend sign scanner finds it), yet the
desktop rule parser classifies it as an expense — `parseWithRules` never
inspects signs, so the sign does not override its keyword inference. -/
theorem c5_sign_counterexample :
    (extractAmount "+500 freelance".data).2 = some '+' ∧
      (AIService.parseWithRules AIService.desktopDefaultCategories sampleClock
        "+500 freelance").type = TType.expense ∧
      TType.expense ≠ TType.income := by
  with_unfolding_all decide

/-- C5 (amended): in the backend parser an explicit sign adjacent to the
number always decides the type — `+` gives income and `-` gives expense
regardless of any keywords; the desktop `parseWithRules` has no sign
handling at all (see the counterexample). -/
theorem c5_sign_overrides_keywords :
    ∀ (clock : Clock) (text : String) (s : Char) (q : ℚ),
      extractAmount text.data = (q, some s) →
      ((s = '+' → (Backend.parseTransaction clock text).type = TType.income) ∧
       (s = '-' → (Backend.parseTransaction clock text).type = TType.expense)) := by
  intro clock text s q h
  rw [backend_type_eq]
  have h2 : (extractAmount text.data).2 = some s := by rw [h]
  unfold Backend.classifyType
  rw [h2]
  constructor
  · intro hp
    subst hp
    simp
  · intro hm
    subst hm
    simp

/-- C5 (witness): the spec's own example "+30 spent on gas" — the
expense keyword "spent" is present, the sign wins and the backend parse
is income; dually "-30 salary" parses as expense despite the income
keyword "salary". -/
theorem c5_sign_overrides_keywords_witness :
    (Backend.parseTransaction sampleClock "+30 spent on gas").type =
        TType.income ∧
      (Backend.parseTransaction sampleClock "-30 salary").type =
        TType.expense :=
  ⟨(c5_sign_overrides_keywords sampleClock "+30 spent on gas" '+' 30
      (by with_unfolding_all decide)).1 rfl,
   (c5_sign_overrides_keywords sampleClock "-30 salary" '-' 30
      (by with_unfolding_all decide)).2 rfl⟩

/-- C8 (counterexample): "lunch 10" matches a keyword row of the desktop
rule parser's table, and the resulting confidence is 0.8, not the 0.85
the claim states for a keyword match. -/
theorem c8_confidence_counterexample :
    (AIService.ruleCategoryMatch (jsToLower "lunch 10")).isSome = true ∧
      (AIService.parseWithRules AIService.desktopDefaultCategories sampleClock
        "lunch 10").confidence = 0.8 ∧
      (0.8 : ℚ) ≠ 0.85 := by
  with_unfolding_all decide

/-- C8 (amended): first-keyword-match category selection holds in both
rule parsers, and the final confidence is exactly the category-matching
confidence (amount, date and merchant extraction never adjust it), but
the keyword-match confidence is 0.85 only in the backend parser — the
desktop `parseWithRules` uses 0.8 (fallback 0.5 in both). -/
theorem c8_confidence_values :
    ∀ (cats : List AIService.DbCategory) (clock : Clock) (text : String),
      ((Backend.parseTransaction clock text).confidence =
        (if (Backend.matchCategory (jsTrim (jsToLower text))
              ((Backend.parseTransaction clock text).type)).isSome
          then (0.85 : ℚ) else 0.5)) ∧
      (∀ c, Backend.matchCategory (jsTrim (jsToLower text))
            ((Backend.parseTransaction clock text).type) = some c →
          (Backend.parseTransaction clock text).category = c.name) ∧
      (Backend.matchCategory (jsTrim (jsToLower text))
            ((Backend.parseTransaction clock text).type) = none →
          (Backend.parseTransaction clock text).category =
            (if (Backend.parseTransaction clock text).type = .income
              then "Other Income" else "Other")) ∧
      ((AIService.parseWithRules cats clock text).confidence =
        (if (AIService.ruleCategoryMatch (jsToLower text)).isSome
          then (0.8 : ℚ) else 0.5)) := by
  intro cats clock text
  rw [backend_confidence_eq, backend_category_eq, backend_type_eq]
  refine ⟨rfl, ?_, ?_, rules_confidence_eq cats clock text⟩
  · intro c hc
    have hmem : c ∈ Backend.DEFAULT_CATEGORIES.filter
        (fun x => x.type = Backend.classifyType (jsTrim (jsToLower text))
          (extractAmount text.data).2) :=
      List.mem_of_find?_eq_some hc
    have hne : c.name ≠ "" :=
      backend_names_ne_empty c (List.mem_filter.mp hmem).1
    unfold Backend.resolvedCategory
    rw [hc]
    simp [jsOrStr, hne]
  · intro hnone
    unfold Backend.resolvedCategory
    rw [hnone]
    cases hty : Backend.classifyType (jsTrim (jsToLower text))
        (extractAmount text.data).2 <;>
      simp <;> with_unfolding_all decide

/-- C8 (witness): "lunch 12.50 at cafe" keyword-matches Dining Out in
the backend parser with confidence exactly 0.85 and in the desktop
parser with exactly 0.8; "hello world" hits the fallback with 0.5. -/
theorem c8_confidence_values_witness :
    (Backend.parseTransaction sampleClock "lunch 12.50 at cafe").category =
        "Dining Out" ∧
      (Backend.parseTransaction sampleClock "lunch 12.50 at cafe").confidence =
        0.85 ∧
      (AIService.parseWithRules AIService.desktopDefaultCategories sampleClock
        "lunch 12.50 at cafe").confidence = 0.8 ∧
      (Backend.parseTransaction sampleClock "hello world").confidence = 0.5 := by
  refine ⟨?_, ?_, ?_, ?_⟩
  · refine ((c8_confidence_values AIService.desktopDefaultCategories sampleClock
        "lunch 12.50 at cafe").2.1
        ⟨"dining", "Dining Out", .expense,
          ["restaurant", "lunch", "dinner", "breakfast", "coffee", "cafe",
           "starbucks", "mcdonald", "pizza", "burger", "food", "eat"]⟩
        ?_).trans rfl
    with_unfolding_all decide
  · rw [(c8_confidence_values AIService.desktopDefaultCategories sampleClock
        "lunch 12.50 at cafe").1]
    with_unfolding_all decide
  · rw [(c8_confidence_values AIService.desktopDefaultCategories sampleClock
        "lunch 12.50 at cafe").2.2.2]
    with_unfolding_all decide
  · rw [(c8_confidence_values AIService.desktopDefaultCategories sampleClock
        "hello world").1]
    with_unfolding_all decide

/-- C9: the validator is a no-op on an already-valid parse — category
exactly a catalog name (on a catalog with case-consistent naming),
nonnegative amount, and strictly formatted date all pass through
unchanged. -/
theorem c9_validator_noop :
    ∀ (cats : List AIService.DbCategory) (clock : Clock)
      (p : ParsedTransaction),
      caseConsistent cats →
      p.category ∈ cats.map (fun c => c.name) →
      0 ≤ p.amount →
      AIService.dateFormatOk p.date = true →
      ((AIService.validateAndEnrich cats clock p).category = p.category ∧
       (AIService.validateAndEnrich cats clock p).amount = p.amount ∧
       (AIService.validateAndEnrich cats clock p).date = p.date) := by
  intro cats clock p hcc hmem hamt hdate
  refine ⟨validate_category_exact cats clock p hcc hmem, ?_, ?_⟩
  · rw [validate_amount_eq]
    exact jsAbs_of_nonneg hamt
  · rw [validate_date_eq, hdate]
    simp

/-- C9 (witness): a valid Groceries expense of 30 on 2026-01-15 passes
the validator of the seeded desktop catalog unchanged. -/
theorem c9_validator_noop_witness :
    (AIService.validateAndEnrich AIService.desktopDefaultCategories sampleClock
        ⟨30, .expense, "Groceries", none, "weekly shop", "2026-01-15", 0.9⟩).category =
        "Groceries" ∧
      (AIService.validateAndEnrich AIService.desktopDefaultCategories sampleClock
        ⟨30, .expense, "Groceries", none, "weekly shop", "2026-01-15", 0.9⟩).amount =
        30 ∧
      (AIService.validateAndEnrich AIService.desktopDefaultCategories sampleClock
        ⟨30, .expense, "Groceries", none, "weekly shop", "2026-01-15", 0.9⟩).date =
        "2026-01-15" :=
  c9_validator_noop AIService.desktopDefaultCategories sampleClock
    ⟨30, .expense, "Groceries", none, "weekly shop", "2026-01-15", 0.9⟩
    (by with_unfolding_all decide) (by with_unfolding_all decide)
    (by with_unfolding_all decide) (by with_unfolding_all decide)

/-- C10: whenever the pipeline escalates, the prompt offers exactly the
first 15 catalog category names — every offered name is among the first
15, a catalog entry past the 15th position only appears if it duplicates
one of those names — while the validator still accepts every catalog
category name, beyond the offered 15. -/
theorem c10_prompt_truncation :
    ∀ (cats : List AIService.DbCategory) (clock : Clock)
      (oracle : Option AIService.ModelOut) (text : String),
      ((AIService.parseWithRules cats clock text).confidence < (0.75 : ℚ) →
        (AIService.parseTransaction cats clock oracle text).promptCategories =
          some (AIService.promptCategoryNames cats)) ∧
      ((AIService.promptCategoryNames cats).length ≤ 15) ∧
      (AIService.promptCategoryNames cats = ((cats.take 15).map (fun c => c.name))) ∧
      (∀ c ∈ cats.drop 15,
        c.name ∉ (cats.take 15).map (fun c => c.name) →
          c.name ∉ AIService.promptCategoryNames cats) ∧
      (∀ p : ParsedTransaction, caseConsistent cats →
        p.category ∈ cats.map (fun c => c.name) →
        (AIService.validateAndEnrich cats clock p).category = p.category) := by
  intro cats clock oracle text
  have htake : AIService.promptCategoryNames cats =
      (cats.take 15).map (fun c => c.name) := by
    unfold AIService.promptCategoryNames
    rw [List.map_take]
  refine ⟨?_, ?_, htake, ?_, fun p hcc hmem =>
    validate_category_exact cats clock p hcc hmem⟩
  · intro hc
    unfold AIService.parseTransaction
    dsimp only
    rw [if_neg (not_le.mpr hc)]
    cases oracle <;> rfl
  · unfold AIService.promptCategoryNames
    rw [List.length_take]
    exact min_le_left _ _
  · intro c _ hnot
    rw [htake]
    exact hnot

/-- C10 (witness): the seeded desktop catalog has 22 categories; on a
low-confidence input the prompt offers its first 15 names only — "Public
Transit" (position 22) is not offered — yet the validator accepts
"Public Transit" verbatim. -/
theorem c10_prompt_truncation_witness :
    (AIService.parseTransaction AIService.desktopDefaultCategories sampleClock
        none "hello world").promptCategories =
      some (AIService.promptCategoryNames AIService.desktopDefaultCategories) ∧
    ("Public Transit" ∈
        AIService.promptCategoryNames AIService.desktopDefaultCategories →
      False) ∧
    (AIService.validateAndEnrich AIService.desktopDefaultCategories sampleClock
        ⟨5, .expense, "Public Transit", none, "tram", "2026-02-02", 0.7⟩).category =
      "Public Transit" :=
  ⟨(c10_prompt_truncation AIService.desktopDefaultCategories sampleClock
      none "hello world").1 (by with_unfolding_all decide),
   by with_unfolding_all decide,
   (c10_prompt_truncation AIService.desktopDefaultCategories sampleClock
      none "hello world").2.2.2.2
      ⟨5, .expense, "Public Transit", none, "tram", "2026-02-02", 0.7⟩
      (by with_unfolding_all decide) (by with_unfolding_all decide)⟩

/- ### Cache lemmas -/

theorem cacheGet_mem {cache : Query.Cache} {k : String} {e : Query.CacheEntry}
    (h : Query.cacheGet cache k = some e) : ∃ p ∈ cache, p.2 = e := by
  unfold Query.cacheGet at h
  cases hf : cache.find? (fun p => p.1 = k) with
  | none => rw [hf] at h; cases h
  | some p =>
      rw [hf] at h
      cases h
      exact ⟨p, List.mem_of_find?_eq_some hf, rfl⟩

theorem processQuery_miss_computes (db : Query.Db) (now : ℤ)
    (oracle : Option String) (cache : Query.Cache) (q : String)
    (hmiss : Query.cacheGet cache (jsTrim (jsToLower q)) = none) :
    (Query.processQuery db now oracle cache q).computed = true ∧
      (Query.processQuery db now oracle cache q).extCalls ≤ 1 := by
  unfold Query.processQuery
  dsimp only
  rw [hmiss]
  cases Query.handleLocalQuery db (jsToLower q) with
  | some r =>
      by_cases hr : r = "" <;> simp only [hr, if_pos, if_neg, reduceIte] <;>
        cases oracle <;> simp
  | none => cases oracle <;> simp

/-- C6: a call whose normalised key holds a cache entry younger than the
TTL returns the stored text with the cache untouched, zero external
calls and no recomputation; consequently two calls with the same
normalised key inside the TTL — the first a miss that stores its answer
— compute only once: the first call computes (at most one external
call), the second serves the stored response with zero calls. -/
theorem c6_cache_hit_no_recompute :
    (∀ (db : Query.Db) (now : ℤ) (oracle : Option String)
      (cache : Query.Cache) (q : String) (e : Query.CacheEntry),
      Query.cacheGet cache (jsTrim (jsToLower q)) = some e →
      now - e.timestamp < Query.CACHE_TTL →
      Query.processQuery db now oracle cache q = ⟨e.response, cache, 0, false⟩) ∧
    (∀ (db : Query.Db) (n1 n2 : ℤ) (o1 o2 : Option String)
      (cache : Query.Cache) (q1 q2 : String) (e2 : Query.CacheEntry),
      jsTrim (jsToLower q1) = jsTrim (jsToLower q2) →
      Query.cacheGet cache (jsTrim (jsToLower q1)) = none →
      Query.cacheGet (Query.processQuery db n1 o1 cache q1).cache
        (jsTrim (jsToLower q2)) = some e2 →
      n2 - e2.timestamp < Query.CACHE_TTL →
      ((Query.processQuery db n1 o1 cache q1).computed = true ∧
       (Query.processQuery db n1 o1 cache q1).extCalls ≤ 1 ∧
       Query.processQuery db n2 o2 (Query.processQuery db n1 o1 cache q1).cache
           q2 =
         ⟨e2.response, (Query.processQuery db n1 o1 cache q1).cache, 0, false⟩)) := by
  have ha : ∀ (db : Query.Db) (now : ℤ) (oracle : Option String)
      (cache : Query.Cache) (q : String) (e : Query.CacheEntry),
      Query.cacheGet cache (jsTrim (jsToLower q)) = some e →
      now - e.timestamp < Query.CACHE_TTL →
      Query.processQuery db now oracle cache q = ⟨e.response, cache, 0, false⟩ := by
    intro db now oracle cache q e hg ht
    unfold Query.processQuery
    dsimp only
    rw [hg]
    dsimp only
    rw [if_pos ht]
  refine ⟨ha, ?_⟩
  intro db n1 n2 o1 o2 cache q1 q2 e2 hkey hmiss hstored httl
  obtain ⟨hcomp, hcalls⟩ := processQuery_miss_computes db n1 o1 cache q1 hmiss
  exact ⟨hcomp, hcalls, ha db n2 o2 _ q2 e2 hstored httl⟩

/-- C6 (witness): a stored "balance" entry is served verbatim to the
differently-spaced, differently-cased query "  Balance " within the TTL;
and the pair (miss on "xyzzy", hit on "XYZZY" 5 ms later) computes once
— the second call returns the trimmed cached text "hi" with zero
external calls. -/
theorem c6_cache_hit_no_recompute_witness :
    Query.processQuery Query.emptyDb 1000 none
        [("balance", ⟨"cached answer", 0⟩)] "  Balance " =
      ⟨"cached answer", [("balance", ⟨"cached answer", 0⟩)], 0, false⟩ ∧
    (Query.processQuery Query.emptyDb 0 (some " hi ") [] "xyzzy").computed =
      true ∧
    Query.processQuery Query.emptyDb 5 none
        (Query.processQuery Query.emptyDb 0 (some " hi ") [] "xyzzy").cache
        "XYZZY" =
      ⟨"hi", (Query.processQuery Query.emptyDb 0 (some " hi ") [] "xyzzy").cache,
        0, false⟩ := by
  refine ⟨c6_cache_hit_no_recompute.1 Query.emptyDb 1000 none
      [("balance", ⟨"cached answer", 0⟩)] "  Balance " ⟨"cached answer", 0⟩
      (by with_unfolding_all decide) (by with_unfolding_all decide), ?_, ?_⟩
  · exact (c6_cache_hit_no_recompute.2 Query.emptyDb 0 5 (some " hi ") none
      [] "xyzzy" "XYZZY" ⟨"hi", 0⟩ (by with_unfolding_all decide)
      (by with_unfolding_all decide) (by with_unfolding_all decide)
      (by with_unfolding_all decide)).1
  · exact (c6_cache_hit_no_recompute.2 Query.emptyDb 0 5 (some " hi ") none
      [] "xyzzy" "XYZZY" ⟨"hi", 0⟩ (by with_unfolding_all decide)
      (by with_unfolding_all decide) (by with_unfolding_all decide)
      (by with_unfolding_all decide)).2.2

/-- C7 (counterexample): when the narrative-generation call succeeds but
returns whitespace-only text, `processQuery` trims it to the empty
string, caches it and returns it — so the returned string is not always
non-empty. -/
theorem c7_nonempty_counterexample :
    (Query.processQuery Query.emptyDb 0 (some "  ") [] "xyzzy").response = "" := by
  with_unfolding_all decide

/-- C7 (amended): `processQuery` is total (never throws) and returns a
non-empty string provided every cached response is non-empty and the
narrative-generation call, when it succeeds, does not trim to the empty
string (a whitespace-only model answer is returned, and cached, as "");
when that call throws on a locally unanswerable query, the fixed generic
help message is returned and the cache is left untouched. -/
theorem c7_fallback_not_cached :
    ∀ (db : Query.Db) (now : ℤ) (oracle : Option String)
      (cache : Query.Cache) (q : String),
      (∀ p ∈ cache, (p : String × Query.CacheEntry).2.response ≠ "") →
      (∀ t, oracle = some t → jsTrim t ≠ "") →
      ((Query.processQuery db now oracle cache q).response ≠ "" ∧
       (oracle = none →
         Query.cacheGet cache (jsTrim (jsToLower q)) = none →
         Query.handleLocalQuery db (jsToLower q) = none →
         (Query.processQuery db now oracle cache q).response =
             Query.genericHelp ∧
           (Query.processQuery db now oracle cache q).cache = cache)) := by
  intro db now oracle cache q hcache horacle
  constructor
  · unfold Query.processQuery
    dsimp only
    cases hg : Query.cacheGet cache (jsTrim (jsToLower q)) with
    | some e =>
        dsimp only
        by_cases ht : now - e.timestamp < Query.CACHE_TTL
        · rw [if_pos ht]
          obtain ⟨p, hp, hpe⟩ := cacheGet_mem hg
          simpa [hpe] using hcache p hp
        · rw [if_neg ht]
          cases hl : Query.handleLocalQuery db (jsToLower q) with
          | some r =>
              dsimp only
              by_cases hr : r = ""
              · rw [if_pos hr]
                cases ho : oracle with
                | some t => exact horacle t ho
                | none => dsimp only; decide
              · rw [if_neg hr]
                exact hr
          | none =>
              dsimp only
              cases ho : oracle with
              | some t => exact horacle t ho
              | none => dsimp only; decide
    | none =>
        dsimp only
        cases hl : Query.handleLocalQuery db (jsToLower q) with
        | some r =>
            dsimp only
            by_cases hr : r = ""
            · rw [if_pos hr]
              cases ho : oracle with
              | some t => exact horacle t ho
              | none => dsimp only; decide
            · rw [if_neg hr]
              exact hr
        | none =>
            dsimp only
            cases ho : oracle with
            | some t => exact horacle t ho
            | none => dsimp only; decide
  · intro hno hmiss hlocal
    subst hno
    unfold Query.processQuery
    dsimp only
    rw [hmiss, hlocal]
    exact ⟨rfl, rfl⟩

/-- C7 (witness): on the unanswerable query "xyzzy" with an empty cache
and a throwing narrative call, the pipeline returns the generic help
message, which is non-empty, and stores nothing. -/
theorem c7_fallback_not_cached_witness :
    (Query.processQuery Query.emptyDb 0 none [] "xyzzy").response ≠ "" ∧
      (Query.processQuery Query.emptyDb 0 none [] "xyzzy").response =
        Query.genericHelp ∧
      (Query.processQuery Query.emptyDb 0 none [] "xyzzy").cache = [] := by
  have h := c7_fallback_not_cached Query.emptyDb 0 none [] "xyzzy"
    (by simp) (by simp)
  refine ⟨h.1, ?_, ?_⟩
  · exact (h.2 rfl (by with_unfolding_all decide)
      (by with_unfolding_all decide)).1
  · exact (h.2 rfl (by with_unfolding_all decide)
      (by with_unfolding_all decide)).2

end Tracy
